import Mathlib

/-
Verification development for the host-side core of the RadeonRays SDK:
the short-stack intersection driver (RadeonRays/src/intersector/
intersector_short_stack.cpp) and the wavefront path-tracing driver
(App/Renderers/PT/ptrenderer.cpp).  The C++ is shallowly embedded below:
pure computations become Lean functions, mutation becomes explicit state
passing, and device/builder calls are recorded as event traces in program
order.
-/

namespace RadeonRays

/-- Maximum per-ray traversal stack depth (kMaxStackSize = 48). -/
def kMaxStackSize : Nat := 48

/-- Maximum ray batch size (kMaxBatchSize = 1024 * 1024). -/
def kMaxBatchSize : Nat := 1024 * 1024

/-- Byte width of a C int on the targeted platforms (sizeof(int) = 4). -/
def sizeofInt : Nat := 4

/-- Byte width of a RadeonRays float3 (sizeof(float3) = 16). -/
def sizeofFloat3 : Nat := 16

/-- A triangle of a mesh: the three mesh-local vertex indices
(Mesh::Face, as returned by Mesh::GetFaceData). -/
structure MeshFace where
  i0 : Nat
  i1 : Nat
  i2 : Nat
deriving DecidableEq

/-- A mesh: its face list (GetFaceData / num_faces) and its vertex count
(num_vertices). -/
structure Mesh where
  faces : List MeshFace
  numVertices : Nat
deriving DecidableEq, Inhabited

/-- A shape of the world: either a mesh or an instance referring to a base
mesh (ShapeImpl::is_instance distinguishes the two; GetId returns the id). -/
inductive Shape where
  | mesh (m : Mesh) (id : Int)
  | inst (base : Mesh) (id : Int)
deriving DecidableEq, Inhabited

/-- ShapeImpl::is_instance. -/
def Shape.isInstance : Shape → Bool
  | .mesh _ _ => false
  | .inst _ _ => true

/-- The mesh a shape contributes: itself for a mesh, the base shape for an
instance (Instance::GetBaseShape cast to Mesh). -/
def Shape.baseMesh : Shape → Mesh
  | .mesh m _ => m
  | .inst b _ => b

/-- Shape::GetId. -/
def Shape.getId : Shape → Int
  | .mesh _ i => i
  | .inst _ i => i

/-- Faces contributed by a shape: num_faces() of its (base) mesh. -/
def Shape.numFaces (s : Shape) : Nat := s.baseMesh.faces.length

/-- Vertices contributed by a shape: num_vertices() of its (base) mesh. -/
def Shape.numVerts (s : Shape) : Nat := s.baseMesh.numVertices

/-- std::iter_swap on two positions of a list (no effect when a position is
out of range, which never happens in the uses below). -/
def listSwap (l : List α) (i j : Nat) : List α :=
  match l[i]?, l[j]? with
  | some vi, some vj => (l.set i vj).set j vi
  | _, _ => l

/-- Backward scan of the bidirectional-iterator std::partition: starting at
position j and moving down, return the last position in (i, j] whose element
satisfies p, or i when there is none (the scan stops at i without testing
it).  This mirrors the second inner loop of the mainstream standard-library
implementations behind the std::partition call at
intersector_short_stack.cpp line 196; the C++ standard guarantees the
partition property of the result but says nothing about stability. -/
def downScan (p : α → Bool) (l : List α) (i : Nat) : Nat → Nat
  | 0 => i
  | j + 1 =>
    if j + 1 ≤ i then i
    else if (l[j+1]?.map p).getD false then j + 1
    else downScan p l i j

/-- Main loop of the bidirectional-iterator std::partition.  State (l, i, j):
positions below i are settled to satisfy p, positions at or above j are
settled to fail p.  The fuel argument is always sufficient because j - i
strictly decreases on every recursive call. -/
def partLoop (p : α → Bool) : Nat → List α → Nat → Nat → List α × Nat
  | 0, l, i, _ => (l, i)
  | fuel + 1, l, i, j =>
    if i < j then
      if (l[i]?.map p).getD false then partLoop p fuel l (i + 1) j
      else
        let k := downScan p l i (j - 1)
        if k = i then (l, i)
        else partLoop p fuel (listSwap l i k) (i + 1) k
    else (l, i)

/-- std::partition over the copied shape vector
(intersector_short_stack.cpp lines 194-200): reorder the list so that
elements satisfying p come first, and return the reordered list together
with the partition point (std::distance(shapes.begin(), firstinst)). -/
def stdPartition (p : α → Bool) (l : List α) : List α × Nat :=
  partLoop p (l.length + 1) l 0 l.length

/-- Face table entry built by Process (FatNodeBvhTranslator::Face): the three
globally-numbered vertex indices, the owning shape's id, and the mesh-local
face index. -/
structure FatFace where
  i0 : Nat
  i1 : Nat
  i2 : Nat
  shapeidx : Int
  id : Nat
deriving Inhabited

/-- mesh_faces_start_idx[k]: total face count of the first k shapes of the
partitioned array (intersector_short_stack.cpp lines 207-228, where the two
loops fill the table with the running numfaces counter). -/
def facesStart (shapes : List Shape) (k : Nat) : Nat :=
  ((shapes.take k).map Shape.numFaces).sum

/-- mesh_vertices_start_idx[k]: total vertex count of the first k shapes of
the partitioned array. -/
def vertsStart (shapes : List Shape) (k : Nat) : Nat :=
  ((shapes.take k).map Shape.numVerts).sum

/-- The mesh_faces_start_idx vector itself. -/
def facesStartTable (shapes : List Shape) : List Nat :=
  (List.range shapes.length).map (facesStart shapes)

/-- std::upper_bound over a sorted vector: the index of the first element
strictly greater than x, i.e. the length of the prefix of elements ≤ x. -/
def upperBound (l : List Nat) (x : Nat) : Nat :=
  (l.takeWhile (fun v => decide (v ≤ x))).length

/-- Placeholder shape used for the (never taken) out-of-range branches of
list lookups below. -/
def defaultShape : Shape := .mesh ⟨[], 0⟩ 0

/-- One face-table entry (intersector_short_stack.cpp lines 356-391): locate
the owning shape of global face index x by an upper_bound lookup in
mesh_faces_start_idx, flatten an instance to its base mesh, and emit the
globally-numbered vertex indices together with shapeidx = shape->GetId() and
id = mesh-local face index. -/
def emitFace (shapes : List Shape) (x : Nat) : FatFace :=
  let shapeidx := upperBound (facesStartTable shapes) x - 1
  let sh := shapes.getD shapeidx defaultShape
  let faceidx := x - facesStart shapes shapeidx
  let mystartidx := vertsStart shapes shapeidx
  let f := sh.baseMesh.faces.getD faceidx ⟨0, 0, 0⟩
  { i0 := f.i0 + mystartidx
    i1 := f.i1 + mystartidx
    i2 := f.i2 + mystartidx
    shapeidx := sh.getId
    id := faceidx }

/-- The whole face table: walk reordering = m_bvh->GetIndices() and emit one
entry per index (intersector_short_stack.cpp lines 344-394). -/
def faceTable (shapes : List Shape) (reordering : List Nat) : List FatFace :=
  reordering.map (emitFace shapes)

/-- Resolve an emitted face back to scene data through its shapeidx (a shape
id) and id (a mesh-local face index): look the shape up by id and index into
its base mesh's face list. -/
def resolveFace (shapes : List Shape) (sid : Int) (fid : Nat) : Option MeshFace :=
  (shapes.find? (fun sh => sh.getId == sid)).bind (fun sh => sh.baseMesh.faces[fid]?)

/-- Exceptions thrown by IntersectorShortStack::Process (both are
ExceptionImpl / ResourceExhausted in the source): the stack-memory
validation failure at line 151 and the tree-height failure at line 276. -/
inductive RrError where
  | allocTooSmall
  | stackOverflowRisk

/-- Device/builder operations performed by Process, recorded in program
order. -/
inductive PEvent where
  | deleteBvhBuffer
  | deleteVerticesBuffer
  | getDeviceSpec
  | buildBvh
  | createVerticesBuffer (bytes : Nat)
  | injectIndices
  | createBvhBuffer
  | deleteStackBuffer
  | createStackBuffer (bytes : Nat)
  | deviceFinish

/-- GPU-side state of IntersectorShortStack (struct GpuData plus m_bvh): the
stored BVH recorded by its height once built, the byte sizes of the vertex
and traversal-stack buffers when allocated, and the uploaded face table. -/
structure IsectState where
  mBvhHeight : Option Nat
  verticesBytes : Option Nat
  stackBytes : Option Nat
  faces : List FatFace

/-- The inputs of Process read from the world: the shape list and the two
change flags (world.has_changed() and
world.GetStateChange() != kStateChangeNone). -/
structure World where
  shapes : List Shape
  hasChanged : Bool
  stateChanged : Bool

/-- Result of one Process call: the state left behind, the device/builder
trace, and the exception that escaped, if any. -/
structure ProcOut where
  state : IsectState
  trace : List PEvent
  err : Option RrError

/-- IntersectorShortStack::Process (intersector_short_stack.cpp lines
134-410).  The BVH builder itself (Bvh::Build, GetHeight, GetIndices) lives
outside the two source files; the height and reordered index list of the
tree it would build enter as the builtHeight and builtIndices arguments.
The rebuild branch deletes the old node/vertex buffers, validates the
device's max_alloc_size, partitions the shapes, builds the tree, fails
(resetting m_bvh) when the height reaches kMaxStackSize, emits the face
table, uploads vertices and nodes, and unconditionally reallocates the
traversal stack buffer of kMaxBatchSize * kMaxStackSize bytes. -/
def process (s : IsectState) (w : World) (maxAllocSize : Nat)
    (builtHeight : Nat) (builtIndices : List Nat) : ProcOut :=
  if s.mBvhHeight = none ∨ w.hasChanged = true ∨ w.stateChanged = true then
    let tr0 : List PEvent :=
      if s.mBvhHeight.isSome then [.deleteBvhBuffer, .deleteVerticesBuffer] else []
    let s0 : IsectState :=
      if s.mBvhHeight.isSome then { s with verticesBytes := none } else s
    let tr1 := tr0 ++ [.getDeviceSpec]
    if maxAllocSize ≤ kMaxBatchSize * kMaxStackSize * sizeofInt then
      ⟨s0, tr1, some .allocTooSmall⟩
    else
      let pr := stdPartition (fun sh => !sh.isInstance) w.shapes
      let shapesP := pr.1
      let numvertices := (shapesP.map Shape.numVerts).sum
      let tr2 := tr1 ++ [.buildBvh]
      if kMaxStackSize ≤ builtHeight then
        ⟨{ s0 with mBvhHeight := none }, tr2, some .stackOverflowRisk⟩
      else
        let faces := faceTable shapesP builtIndices
        let tr3 := tr2 ++
          [.createVerticesBuffer (numvertices * sizeofFloat3), .injectIndices,
           .createBvhBuffer]
        let tr4 := tr3 ++
          (if s.stackBytes.isSome then [.deleteStackBuffer] else []) ++
          [.createStackBuffer (kMaxBatchSize * kMaxStackSize)]
        ⟨{ mBvhHeight := some builtHeight
           verticesBytes := some (numvertices * sizeofFloat3)
           stackBytes := some (kMaxBatchSize * kMaxStackSize)
           faces := faces },
         tr4 ++ [.deviceFinish], none⟩
  else ⟨s, [], none⟩

end RadeonRays

namespace Baikal

open RadeonRays

/-- Kernel dispatches and buffer/queue operations issued by PtRenderer, in
program order. -/
inductive KEvent where
  | generatePrimaryRays
  | copyIotaToPixelIndices0
  | copyIotaToPixelIndices1
  | fillHitcount
  | fillHits
  | queryIntersection
  | evaluateVolume
  | shadeMiss
  | filterPathStream
  | compactRays
  | restorePixelIndices
  | shadeVolume
  | shadeSurface
  | shadeBackgroundEnvMap
  | queryOcclusion
  | gatherLightSamples
  | flushQueue
  | fillAOVs

/-- Whether an event is a kernel or parallel-primitive dispatch, as opposed
to a buffer fill/copy or a queue flush. -/
def KEvent.isDispatch : KEvent → Bool
  | .generatePrimaryRays => true
  | .queryIntersection => true
  | .evaluateVolume => true
  | .shadeMiss => true
  | .filterPathStream => true
  | .compactRays => true
  | .restorePixelIndices => true
  | .shadeVolume => true
  | .shadeSurface => true
  | .shadeBackgroundEnvMap => true
  | .queryOcclusion => true
  | .gatherLightSamples => true
  | .fillAOVs => true
  | _ => false

/-- One iteration of the bounce loop of PtRenderer::Render (ptrenderer.cpp
lines 187-230), as the sequence of operations it issues: clear the hits
buffer, intersect, EvaluateVolume, ShadeMiss when pass > 0 and an
environment map is present, FilterPathStream, compaction,
RestorePixelIndices, ShadeVolume, ShadeSurface, ShadeBackgroundEnvMap on
pass 0 only, the occlusion query, GatherLightSamples, and a queue flush. -/
def passBody (envmapidx : Int) (pass : Nat) : List KEvent :=
  [.fillHits, .queryIntersection, .evaluateVolume]
  ++ (if 0 < pass ∧ envmapidx > -1 then [.shadeMiss] else [])
  ++ [.filterPathStream, .compactRays, .restorePixelIndices, .shadeVolume, .shadeSurface]
  ++ (if pass = 0 then [.shadeBackgroundEnvMap] else [])
  ++ [.queryOcclusion, .gatherLightSamples, .flushQueue]

/-- Width and height of an Output object. -/
structure OutputDims where
  w : Nat
  h : Nat

/-- Modelled from the spec: the number of output slots
(Renderer::OutputType::kMax) of the Renderer base class, which is not under
src/; slot 0 is the color output and slots 1 .. kOutputTypeMax - 1 are the
AOVs.  Its exact value is irrelevant to the claims. -/
def kOutputTypeMax : Nat := 4

/-- PtRenderer state relevant to the claims: the bound outputs per slot (the
storage behind GetOutput/SetOutput of the Renderer base class, modelled from
the spec since the base class is not under src/), the pixel count of the
currently allocated working set, the bounce count and the frame counter. -/
structure PtState where
  outputs : Nat → Option OutputDims
  workingSetPixels : Option Nat
  numBounces : Nat
  framecnt : Nat

/-- PtRenderer::ResizeWorkingSet (ptrenderer.cpp lines 264-335): every
working-set buffer is recreated at the new output's pixel count. -/
def resizeWorkingSet (s : PtState) (o : OutputDims) : PtState :=
  { s with workingSetPixels := some (o.w * o.h) }

/-- PtRenderer::SetOutput (ptrenderer.cpp lines 253-262): call
ResizeWorkingSet when no output of the type is bound or the bound one is
strictly smaller in width or in height, then store the output.  Returns the
new state and whether ResizeWorkingSet ran. -/
def setOutput (s : PtState) (t : Nat) (o : OutputDims) : PtState × Bool :=
  let needResize :=
    match s.outputs t with
    | none => true
    | some c => decide (c.w < o.w) || decide (c.h < o.h)
  let s1 := if needResize then resizeWorkingSet s o else s
  ({ s1 with outputs := fun u => if u = t then some o else s1.outputs u }, needResize)

/-- PtRenderer::Clear (ptrenderer.cpp lines 154-158): clears the output and
resets m_framecnt to zero. -/
def clear (s : PtState) : PtState :=
  { s with framecnt := 0 }

/-- The aov_pass_needed scan of Render (ptrenderer.cpp lines 234-242): true
when any output slot other than color is bound. -/
def aovPassNeeded (s : PtState) : Bool :=
  (List.range kOutputTypeMax).any (fun i => decide (1 ≤ i) && (s.outputs i).isSome)

/-- Event sequence issued by PtRenderer::Render (ptrenderer.cpp lines
166-251): the primary generation and the bounce loop run only when a color
output is bound; the AOV pass (which itself generates primary rays,
intersects them and dispatches FillAOVs, lines 337-406) runs when any other
output is bound. -/
def renderTraceOf (s : PtState) (envmapidx : Int) : List KEvent :=
  (match s.outputs 0 with
   | some _ =>
     [.generatePrimaryRays, .copyIotaToPixelIndices0, .copyIotaToPixelIndices1,
      .fillHitcount]
     ++ (List.range s.numBounces).flatMap (passBody envmapidx)
   | none => [])
  ++ (if aovPassNeeded s then
        [.generatePrimaryRays, .queryIntersection, .fillAOVs, .flushQueue]
      else [])

/-- PtRenderer::Render: issues the trace and increments m_framecnt on every
path, including when no color output is bound.  The body of Render contains
no throw statement and no exception handler (kernel-launch failures are left
to the compute layer), so the call always returns normally. -/
def render (s : PtState) (envmapidx : Int) : Except RrError (PtState × List KEvent) :=
  .ok ({ s with framecnt := s.framecnt + 1 }, renderTraceOf s envmapidx)

end Baikal

namespace RadeonRays

/-- A mesh shape with no faces, used by the concrete partition scenarios. -/
def exMeshA : Shape := .mesh ⟨[], 0⟩ 1

/-- A second mesh shape, distinguishable from exMeshA by its id. -/
def exMeshB : Shape := .mesh ⟨[], 1⟩ 2

/-- An instance shape, used by the concrete partition scenarios. -/
def exInstC : Shape := .inst ⟨[], 0⟩ 3

/-- A two-shape scene for the face-table scenario: a mesh with one face and
three vertices (id 7), and an instance of a two-face base mesh (id 9). -/
def exShapes : List Shape :=
  [.mesh ⟨[⟨0, 1, 2⟩], 3⟩ 7, .inst ⟨[⟨0, 1, 2⟩, ⟨1, 2, 0⟩], 3⟩ 9]

/-- Intersector state holding a stack buffer of exactly the byte size the
spec names (kMaxBatchSize * kMaxStackSize * sizeof(int)), a built BVH and a
vertex buffer. -/
def exIsectState : IsectState :=
  { mBvhHeight := some 3
    verticesBytes := some 160
    stackBytes := some (kMaxBatchSize * kMaxStackSize * sizeofInt)
    faces := [] }

/-- A world marked changed, with no shapes. -/
def exWorldChanged : World :=
  { shapes := [], hasChanged := true, stateChanged := false }

end RadeonRays

namespace Baikal

/-- Renderer state with no outputs bound at all. -/
def exEmptyState : PtState :=
  { outputs := fun _ => none
    workingSetPixels := none
    numBounces := 5
    framecnt := 0 }

/-- Renderer state with no color output but one AOV output (slot 1) bound. -/
def exAovOnlyState : PtState :=
  { outputs := fun i => if i = 1 then some ⟨64, 64⟩ else none
    workingSetPixels := none
    numBounces := 5
    framecnt := 0 }

/-- State after SetOutput(kColor, 512x512) on the empty renderer state. -/
def exGrow : PtState := (setOutput exEmptyState 0 ⟨512, 512⟩).1

/-- State after a further SetOutput(kColor, 1024x1). -/
def exWide : PtState := (setOutput exGrow 0 ⟨1024, 1⟩).1

end Baikal

namespace Baikal

open RadeonRays

/-- C7: in every pass of PtRenderer::Render's bounce loop,
ShadeBackgroundEnvMap is dispatched exactly when pass = 0, ShadeMiss exactly
when pass > 0 and the compiled scene's envmapidx exceeds -1, and the
dispatches run in the order: intersection query, EvaluateVolume, optional
ShadeMiss, FilterPathStream, compaction, RestorePixelIndices, ShadeVolume,
ShadeSurface, optional ShadeBackgroundEnvMap, occlusion query,
GatherLightSamples. -/
theorem pass_dispatch_order (envmapidx : Int) (pass : Nat) :
    ((passBody envmapidx pass).filter KEvent.isDispatch =
      [.queryIntersection, .evaluateVolume]
      ++ (if 0 < pass ∧ envmapidx > -1 then [.shadeMiss] else [])
      ++ [.filterPathStream, .compactRays, .restorePixelIndices, .shadeVolume,
          .shadeSurface]
      ++ (if pass = 0 then [.shadeBackgroundEnvMap] else [])
      ++ [.queryOcclusion, .gatherLightSamples]) ∧
    (KEvent.shadeBackgroundEnvMap ∈ passBody envmapidx pass ↔ pass = 0) ∧
    (KEvent.shadeMiss ∈ passBody envmapidx pass ↔ 0 < pass ∧ envmapidx > -1) := by
  rcases Nat.eq_zero_or_pos pass with hp | hp
  · subst hp
    by_cases he : envmapidx > -1 <;>
      simp [passBody, KEvent.isDispatch, he]
  · by_cases he : envmapidx > -1 <;>
      simp [passBody, KEvent.isDispatch, he, hp, hp.ne']

/-- C10: every call to PtRenderer::Render increments m_framecnt by exactly
one, including when no color output is bound (the early-return path), the
incremented counter is never zero, only Clear resets it to zero, and
SetOutput leaves it unchanged. -/
theorem framecnt_lifecycle (s : PtState) (envmapidx : Int) (t : Nat) (o : OutputDims) :
    render s envmapidx =
      Except.ok ({ s with framecnt := s.framecnt + 1 }, renderTraceOf s envmapidx) ∧
    ({ s with framecnt := s.framecnt + 1 } : PtState).framecnt = s.framecnt + 1 ∧
    s.framecnt + 1 ≠ 0 ∧
    (clear s).framecnt = 0 ∧
    ((setOutput s t o).1).framecnt = s.framecnt := by
  refine ⟨rfl, rfl, Nat.succ_ne_zero _, rfl, ?_⟩
  cases h : s.outputs t <;>
    simp [setOutput, resizeWorkingSet, h, apply_ite]

/-- C8 counterexample: with no color output bound but an AOV output bound,
Render is not a silent no-op: it dispatches GeneratePrimaryRays, an
intersection query and FillAOVs (producing the AOV frame). -/
theorem render_no_color_counterexample :
    exAovOnlyState.outputs 0 = none ∧
    renderTraceOf exAovOnlyState 0 =
      [.generatePrimaryRays, .queryIntersection, .fillAOVs, .flushQueue] ∧
    KEvent.fillAOVs ∈ renderTraceOf exAovOnlyState 0 ∧
    KEvent.fillAOVs.isDispatch = true := by
  refine ⟨rfl, rfl, ?_, rfl⟩
  show KEvent.fillAOVs ∈ [KEvent.generatePrimaryRays, KEvent.queryIntersection,
    KEvent.fillAOVs, KEvent.flushQueue]
  exact List.Mem.tail _ (List.Mem.tail _ (List.Mem.head _))

/-- C8 (amended): when Render is called with no color output bound the
bounce loop is skipped entirely - no bounce-loop kernel is dispatched, and
when additionally no AOV output is bound nothing is dispatched at all - and
Render always returns normally (it contains no throw). -/
theorem render_no_color_skips_loop (s : PtState) (envmapidx : Int) :
    (∃ out, render s envmapidx = Except.ok out) ∧
    (s.outputs 0 = none →
      renderTraceOf s envmapidx =
        (if aovPassNeeded s then
          [.generatePrimaryRays, .queryIntersection, .fillAOVs, .flushQueue]
         else []) ∧
      (aovPassNeeded s = false → renderTraceOf s envmapidx = []) ∧
      (∀ e ∈ renderTraceOf s envmapidx,
        e ∉ ([.fillHits, .evaluateVolume, .shadeMiss, .filterPathStream,
          .compactRays, .restorePixelIndices, .shadeVolume, .shadeSurface,
          .shadeBackgroundEnvMap, .queryOcclusion, .gatherLightSamples] :
          List KEvent))) := by
  refine ⟨⟨_, rfl⟩, fun h0 => ?_⟩
  cases haov : aovPassNeeded s <;>
    simp [renderTraceOf, h0, haov]

/-- C8 amended witness at the concrete state with no outputs at all. -/
theorem render_no_color_skips_loop_witness :
    renderTraceOf exEmptyState 0 = [] :=
  ((render_no_color_skips_loop exEmptyState 0).2 rfl).2.1 rfl

/-- C2 counterexample: SetOutput(512x512) then SetOutput(1024x1) reallocates
(width grew) and the working set shrinks from 262144 to 1024 pixels, and a
further SetOutput(512x512) - dimensions not larger than the previously bound
512x512 output - reallocates again. -/
theorem working_set_shrink_counterexample :
    (setOutput exEmptyState 0 ⟨512, 512⟩).2 = true ∧
    exGrow.workingSetPixels = some (512 * 512) ∧
    (setOutput exGrow 0 ⟨1024, 1⟩).2 = true ∧
    exWide.workingSetPixels = some 1024 ∧
    1024 < 512 * 512 ∧
    (setOutput exWide 0 ⟨512, 512⟩).2 = true := by
  decide

/-- C2 (amended): SetOutput reallocates the working set if and only if no
output of the given type is bound or the currently bound output of that type
is strictly smaller in width or in height; a SetOutput whose dimensions do
not exceed the currently bound output of its type does not reallocate (the
working set can nevertheless shrink in pixel count when one dimension grows
while the other shrinks). -/
theorem set_output_resize_iff (s : PtState) (t : Nat) (o : OutputDims) :
    ((setOutput s t o).2 = true ↔
      s.outputs t = none ∨
        ∃ c, s.outputs t = some c ∧ (c.w < o.w ∨ c.h < o.h)) ∧
    (∀ c, s.outputs t = some c → o.w ≤ c.w → o.h ≤ c.h →
      (setOutput s t o).2 = false) ∧
    ((setOutput s t o).2 = true →
      ((setOutput s t o).1).workingSetPixels = some (o.w * o.h)) ∧
    ((setOutput s t o).2 = false →
      ((setOutput s t o).1).workingSetPixels = s.workingSetPixels) ∧
    ((setOutput s t o).1).outputs t = some o := by
  cases h : s.outputs t <;>
    simp [setOutput, resizeWorkingSet, h, apply_ite] <;>
    omega

/-- C2 amended witness: with a 512x512 output bound, SetOutput(128x128) does
not reallocate. -/
theorem set_output_resize_iff_witness :
    (setOutput exGrow 0 ⟨128, 128⟩).2 = false :=
  (set_output_resize_iff exGrow 0 ⟨128, 128⟩).2.1 ⟨512, 512⟩ (by rfl)
    (by decide) (by decide)

end Baikal

namespace RadeonRays

/-- C1 counterexample: on a successful rebuild with a stack buffer already
present (of exactly the byte size the claim names), Process deletes it and
creates a new buffer of kMaxBatchSize * kMaxStackSize bytes - without the
sizeof(int) factor - so the buffer is neither kept nor of the claimed size. -/
theorem stack_realloc_counterexample :
    exIsectState.stackBytes = some (kMaxBatchSize * kMaxStackSize * sizeofInt) ∧
    (process exIsectState exWorldChanged
      (kMaxBatchSize * kMaxStackSize * sizeofInt + 1) 0 []).err = none ∧
    (process exIsectState exWorldChanged
      (kMaxBatchSize * kMaxStackSize * sizeofInt + 1) 0 []).state.stackBytes =
      some (kMaxBatchSize * kMaxStackSize) ∧
    (process exIsectState exWorldChanged
      (kMaxBatchSize * kMaxStackSize * sizeofInt + 1) 0 []).state.stackBytes ≠
      exIsectState.stackBytes ∧
    (process exIsectState exWorldChanged
      (kMaxBatchSize * kMaxStackSize * sizeofInt + 1) 0 []).state.stackBytes ≠
      some (kMaxBatchSize * kMaxStackSize * sizeofInt) ∧
    PEvent.deleteStackBuffer ∈
      (process exIsectState exWorldChanged
        (kMaxBatchSize * kMaxStackSize * sizeofInt + 1) 0 []).trace := by
  refine ⟨rfl, rfl, rfl, ?_, ?_, ?_⟩
  · show some (kMaxBatchSize * kMaxStackSize) ≠
      some (kMaxBatchSize * kMaxStackSize * sizeofInt)
    intro h
    have h2 := Option.some.inj h
    simp [kMaxBatchSize, kMaxStackSize, sizeofInt] at h2
  · show some (kMaxBatchSize * kMaxStackSize) ≠
      some (kMaxBatchSize * kMaxStackSize * sizeofInt)
    intro h
    have h2 := Option.some.inj h
    simp [kMaxBatchSize, kMaxStackSize, sizeofInt] at h2
  · show PEvent.deleteStackBuffer ∈ [PEvent.deleteBvhBuffer,
      PEvent.deleteVerticesBuffer, PEvent.getDeviceSpec, PEvent.buildBvh,
      PEvent.createVerticesBuffer 0, PEvent.injectIndices,
      PEvent.createBvhBuffer, PEvent.deleteStackBuffer,
      PEvent.createStackBuffer (kMaxBatchSize * kMaxStackSize),
      PEvent.deviceFinish]
    exact List.Mem.tail _ (List.Mem.tail _ (List.Mem.tail _ (List.Mem.tail _
      (List.Mem.tail _ (List.Mem.tail _ (List.Mem.tail _ (List.Mem.head _)))))))

/-- C1 (amended): on every rebuild that completes without throwing, Process
unconditionally reallocates the traversal stack buffer with size
kMaxBatchSize * kMaxStackSize bytes - deleting an existing stack buffer
first rather than keeping it. -/
theorem stack_realloc_amended (s : IsectState) (w : World) (mas bh : Nat)
    (ri : List Nat)
    (hre : s.mBvhHeight = none ∨ w.hasChanged = true ∨ w.stateChanged = true)
    (hok : (process s w mas bh ri).err = none) :
    (process s w mas bh ri).state.stackBytes =
      some (kMaxBatchSize * kMaxStackSize) ∧
    PEvent.createStackBuffer (kMaxBatchSize * kMaxStackSize) ∈
      (process s w mas bh ri).trace ∧
    (s.stackBytes.isSome = true →
      PEvent.deleteStackBuffer ∈ (process s w mas bh ri).trace) := by
  unfold process at hok ⊢
  rw [if_pos hre] at hok ⊢
  by_cases hm : mas ≤ kMaxBatchSize * kMaxStackSize * sizeofInt
  · rw [if_pos hm] at hok
    exact absurd hok (by simp)
  · rw [if_neg hm] at hok ⊢
    by_cases hh : kMaxStackSize ≤ bh
    · rw [if_pos hh] at hok
      exact absurd hok (by simp)
    · rw [if_neg hh]
      refine ⟨rfl, by simp, fun hsb => by simp [hsb]⟩

/-- C1 amended witness at the concrete rebuild scenario. -/
theorem stack_realloc_amended_witness :
    (process exIsectState exWorldChanged
      (kMaxBatchSize * kMaxStackSize * sizeofInt + 1) 0 []).state.stackBytes =
      some (kMaxBatchSize * kMaxStackSize) :=
  (stack_realloc_amended exIsectState exWorldChanged
    (kMaxBatchSize * kMaxStackSize * sizeofInt + 1) 0 []
    (Or.inr (Or.inl rfl)) (by rfl)).1

/-- C4: on a rebuild, if the built BVH's height reaches kMaxStackSize the
escaping exception is the stack-overflow ResourceExhausted and the stored
BVH has been released (m_bvh is null in the post state); and whenever
Process returns normally having rebuilt, the stored BVH's height is strictly
below kMaxStackSize. -/
theorem bvh_height_guard (s : IsectState) (w : World) (mas bh : Nat)
    (ri : List Nat)
    (hre : s.mBvhHeight = none ∨ w.hasChanged = true ∨ w.stateChanged = true) :
    (kMaxBatchSize * kMaxStackSize * sizeofInt < mas → kMaxStackSize ≤ bh →
      (process s w mas bh ri).err = some RrError.stackOverflowRisk ∧
      (process s w mas bh ri).state.mBvhHeight = none) ∧
    ((process s w mas bh ri).err = none →
      ∃ hgt, (process s w mas bh ri).state.mBvhHeight = some hgt ∧
        hgt < kMaxStackSize) := by
  constructor
  · intro hm hh
    unfold process
    rw [if_pos hre, if_neg (by omega), if_pos hh]
    exact ⟨rfl, rfl⟩
  · intro hok
    unfold process at hok ⊢
    rw [if_pos hre] at hok ⊢
    by_cases hm : mas ≤ kMaxBatchSize * kMaxStackSize * sizeofInt
    · rw [if_pos hm] at hok
      exact absurd hok (by simp)
    · rw [if_neg hm] at hok ⊢
      by_cases hh : kMaxStackSize ≤ bh
      · rw [if_pos hh] at hok
        exact absurd hok (by simp)
      · rw [if_neg hh]
        exact ⟨bh, rfl, by omega⟩

/-- C4 witness: a height-48 build on a changed world fails with the
stack-overflow error and leaves m_bvh null. -/
theorem bvh_height_guard_witness :
    (process exIsectState exWorldChanged
      (kMaxBatchSize * kMaxStackSize * sizeofInt + 1) 48 []).err =
      some RrError.stackOverflowRisk ∧
    (process exIsectState exWorldChanged
      (kMaxBatchSize * kMaxStackSize * sizeofInt + 1) 48 []).state.mBvhHeight =
      none :=
  (bvh_height_guard exIsectState exWorldChanged
    (kMaxBatchSize * kMaxStackSize * sizeofInt + 1) 48 []
    (Or.inr (Or.inl rfl))).1 (by decide) (by decide)

/-- C5: on a rebuild, Process throws before building anything exactly when
the device's max_alloc_size is not strictly greater than
kMaxBatchSize * kMaxStackSize * sizeof(int); when it is strictly greater,
the validation passes, the build proceeds, and the stack-memory error can no
longer occur. -/
theorem stack_validation_iff (s : IsectState) (w : World) (mas bh : Nat)
    (ri : List Nat)
    (hre : s.mBvhHeight = none ∨ w.hasChanged = true ∨ w.stateChanged = true) :
    (((process s w mas bh ri).err.isSome = true ∧
      PEvent.buildBvh ∉ (process s w mas bh ri).trace) ↔
      mas ≤ kMaxBatchSize * kMaxStackSize * sizeofInt) ∧
    (kMaxBatchSize * kMaxStackSize * sizeofInt < mas →
      PEvent.buildBvh ∈ (process s w mas bh ri).trace ∧
      (process s w mas bh ri).err ≠ some RrError.allocTooSmall) := by
  unfold process
  rw [if_pos hre]
  by_cases hm : mas ≤ kMaxBatchSize * kMaxStackSize * sizeofInt
  · rw [if_pos hm]
    constructor
    · exact iff_of_true ⟨rfl, by cases hb : s.mBvhHeight.isSome <;> simp [hb]⟩ hm
    · intro hlt
      omega
  · rw [if_neg hm]
    constructor
    · refine iff_of_false (fun hc => hc.2 ?_) hm
      by_cases hh : kMaxStackSize ≤ bh
      · rw [if_pos hh] at hc ⊢
        simp
      · rw [if_neg hh] at hc ⊢
        simp
    · intro _
      by_cases hh : kMaxStackSize ≤ bh
      · rw [if_pos hh]
        exact ⟨by simp, by simp⟩
      · rw [if_neg hh]
        refine ⟨by simp, by simp⟩

/-- C5 witness: with max_alloc_size equal to the bound (not strictly
greater), the rebuild fails before any build. -/
theorem stack_validation_iff_witness :
    (process exIsectState exWorldChanged
      (kMaxBatchSize * kMaxStackSize * sizeofInt) 0 []).err.isSome = true ∧
    PEvent.buildBvh ∉
      (process exIsectState exWorldChanged
        (kMaxBatchSize * kMaxStackSize * sizeofInt) 0 []).trace :=
  ((stack_validation_iff exIsectState exWorldChanged
    (kMaxBatchSize * kMaxStackSize * sizeofInt) 0 []
    (Or.inr (Or.inl rfl))).1).mpr (by decide)

end RadeonRays

namespace RadeonRays

/-- Helper: the Option-valued element test used by the partition loops equals
the predicate on the getD access when the index is in range. -/
theorem optMap_getD [Inhabited α] (l : List α) (p : α → Bool) (j : Nat)
    (hj : j < l.length) :
    (l[j]?.map p).getD false = p (l.getD j default) := by
  simp [List.getElem?_eq_getElem hj, List.getD_eq_getElem?_getD]

/-- The backward scan never goes below its lower bound. -/
theorem downScan_ge (p : α → Bool) (l : List α) (i : Nat) :
    ∀ j, i ≤ downScan p l i j := by
  intro j
  induction j with
  | zero => simp [downScan]
  | succ t ih =>
    simp only [downScan]
    split
    · exact Nat.le_refl i
    · split
      · omega
      · exact ih

/-- The backward scan never goes above its starting point (or the lower
bound, whichever is larger). -/
theorem downScan_le (p : α → Bool) (l : List α) (i : Nat) :
    ∀ j, downScan p l i j ≤ max i j := by
  intro j
  induction j with
  | zero => simp [downScan]
  | succ t ih =>
    simp only [downScan]
    split
    · exact le_max_left _ _
    · split
      · exact le_max_right _ _
      · exact le_trans ih (by omega)

/-- When the backward scan stops strictly above the lower bound, the element
found satisfies the predicate. -/
theorem downScan_sat [Inhabited α] (p : α → Bool) (l : List α) (i : Nat) :
    ∀ j, j < l.length → i < downScan p l i j →
      p (l.getD (downScan p l i j) default) = true := by
  intro j
  induction j with
  | zero => intro _ h; simp [downScan] at h
  | succ t ih =>
    intro hj hlt
    by_cases h1 : t + 1 ≤ i
    · simp only [downScan, if_pos h1] at hlt
      omega
    · by_cases h2 : (l[t+1]?.map p).getD false = true
      · simp only [downScan, if_neg h1, if_pos h2]
        rw [← optMap_getD l p (t+1) hj]
        exact h2
      · simp only [downScan, if_neg h1, if_neg h2] at hlt ⊢
        exact ih (by omega) hlt

/-- Every position strictly between the scan result and the starting point
fails the predicate. -/
theorem downScan_fail [Inhabited α] (p : α → Bool) (l : List α) (i : Nat) :
    ∀ j, j < l.length → ∀ t, downScan p l i j < t → t ≤ j →
      p (l.getD t default) = false := by
  intro j
  induction j with
  | zero => intro _ t h1 h2; omega
  | succ u ih =>
    intro hj t h1 h2
    by_cases hb1 : u + 1 ≤ i
    · simp only [downScan, if_pos hb1] at h1
      have := downScan_ge p l i (u+1)
      omega
    · by_cases hb2 : (l[u+1]?.map p).getD false = true
      · simp only [downScan, if_neg hb1, if_pos hb2] at h1
        omega
      · simp only [downScan, if_neg hb1, if_neg hb2] at h1
        rcases Nat.lt_or_ge t (u+1) with hc | hc
        · exact ih (by omega) t h1 (by omega)
        · have ht : t = u + 1 := by omega
          subst ht
          rw [← optMap_getD l p (u+1) hj]
          exact Bool.eq_false_iff.mpr hb2

/-- listSwap preserves length. -/
theorem listSwap_length (l : List α) (i j : Nat) :
    (listSwap l i j).length = l.length := by
  unfold listSwap
  split
  · simp
  · rfl

/-- Element access after a swap of two in-range positions. -/
theorem listSwap_getD [Inhabited α] (l : List α) (i j t : Nat)
    (hi : i < l.length) (hj : j < l.length) :
    (listSwap l i j).getD t default =
      if j = t then l.getD i default
      else if i = t then l.getD j default
      else l.getD t default := by
  unfold listSwap
  rw [List.getElem?_eq_getElem hi, List.getElem?_eq_getElem hj]
  simp only [List.getD_eq_getElem?_getD, List.getElem?_set, List.length_set]
  by_cases h1 : j = t
  · subst h1
    simp [hi, hj, List.getElem?_eq_getElem]
  · by_cases h2 : i = t
    · subst h2
      simp [h1, hi, hj, List.getElem?_eq_getElem]
    · simp [h1, h2]

/-- Swapping two in-range positions preserves element counts. -/
theorem listSwap_count [DecidableEq α] (l : List α) (i j : Nat)
    (hi : i < l.length) (hj : j < l.length) (x : α) :
    (listSwap l i j).count x = l.count x := by
  unfold listSwap
  rw [List.getElem?_eq_getElem hi, List.getElem?_eq_getElem hj]
  have hj2 : j < (l.set i l[j]).length := by simpa using hj
  rw [List.count_set _ _ _ _ hj2, List.count_set _ _ _ _ hi]
  have hcnt : l[i] = x → 1 ≤ l.count x := fun he =>
    List.count_pos_iff.mpr (he ▸ List.getElem_mem hi)
  by_cases hij : i = j
  · subst hij
    simp only [List.getElem_set, if_pos rfl]
    by_cases he : l[i] = x <;>
      simp [he, hcnt]
  · have hgs : (l.set i l[j])[j] = l[j] := List.getElem_set_ne hij hj2
    rw [hgs]
    by_cases he1 : l[i] = x <;> by_cases he2 : l[j] = x <;>
      simp [he1, he2, hcnt] <;>
      omega

end RadeonRays

namespace RadeonRays

/-- Main invariant of the std::partition loop: given that positions below i
already satisfy p and positions from j on already fail p, the loop returns a
list of the same length and the same element counts, split at a point m with
every position below m satisfying p and every position from m on failing p. -/
theorem partLoop_spec [Inhabited α] [DecidableEq α] (p : α → Bool) :
    ∀ (fuel : Nat) (l : List α) (i j : Nat),
      j ≤ l.length → i ≤ j → j - i ≤ fuel →
      (∀ t, t < i → p (l.getD t default) = true) →
      (∀ t, j ≤ t → t < l.length → p (l.getD t default) = false) →
      ((partLoop p fuel l i j).1.length = l.length ∧
       (partLoop p fuel l i j).2 ≤ l.length ∧
       (∀ t, t < (partLoop p fuel l i j).2 →
         p ((partLoop p fuel l i j).1.getD t default) = true) ∧
       (∀ t, (partLoop p fuel l i j).2 ≤ t → t < l.length →
         p ((partLoop p fuel l i j).1.getD t default) = false) ∧
       (∀ x, (partLoop p fuel l i j).1.count x = l.count x)) := by
  intro fuel
  induction fuel with
  | zero =>
    intro l i j hj hij hf h1 h2
    have hieq : i = j := by omega
    subst hieq
    have hres : partLoop p 0 l i i = (l, i) := rfl
    rw [hres]
    exact ⟨rfl, by omega, fun t ht => h1 t ht,
      fun t ht htl => h2 t ht htl, fun x => rfl⟩
  | succ fuel ih =>
    intro l i j hj hij hf h1 h2
    by_cases hlt : i < j
    · by_cases hc : (l[i]?.map p).getD false = true
      · have hpi : p (l.getD i default) = true := by
          rw [← optMap_getD l p i (by omega)]
          exact hc
        have hrec := ih l (i+1) j hj (by omega) (by omega)
          (fun t ht => by
            rcases Nat.lt_or_ge t i with h | h
            · exact h1 t h
            · have ht2 : t = i := by omega
              subst ht2
              exact hpi)
          h2
        have hres : partLoop p (fuel+1) l i j = partLoop p fuel l (i+1) j := by
          simp only [partLoop, if_pos hlt, if_pos hc]
        rw [hres]
        exact hrec
      · have hpi : p (l.getD i default) = false := by
          rw [← optMap_getD l p i (by omega)]
          exact Bool.eq_false_iff.mpr hc
        by_cases hki : downScan p l i (j - 1) = i
        · have hres : partLoop p (fuel+1) l i j = (l, i) := by
            simp only [partLoop, if_pos hlt, if_neg hc, if_pos hki]
          rw [hres]
          refine ⟨rfl, by omega, fun t ht => h1 t ht, fun t ht htl => ?_,
            fun x => rfl⟩
          rcases Nat.lt_or_ge t j with hcase | hcase
          · rcases Nat.eq_or_lt_of_le ht with he | hlt2
            · rw [← he]
              exact hpi
            · exact downScan_fail p l i (j-1) (by omega) t (by omega) (by omega)
          · exact h2 t hcase htl
        · set k := downScan p l i (j - 1) with hk
          have hkge : i ≤ k := downScan_ge p l i (j - 1)
          have hkle : k ≤ j - 1 := le_trans (downScan_le p l i (j - 1)) (by omega)
          have hik : i < k := by omega
          have hkl : k < l.length := by omega
          have hil : i < l.length := by omega
          have hpk : p (l.getD k default) = true :=
            downScan_sat p l i (j-1) (by omega) (by omega)
          have hswlen : (listSwap l i k).length = l.length := listSwap_length l i k
          have hres : partLoop p (fuel+1) l i j =
              partLoop p fuel (listSwap l i k) (i+1) k := by
            simp only [partLoop, if_pos hlt, if_neg hc, ← hk, if_neg hki]
          have hrec := ih (listSwap l i k) (i+1) k
            (by rw [hswlen]; omega) (by omega) (by omega)
            (fun t ht => by
              rw [listSwap_getD l i k t hil hkl]
              rcases Nat.lt_or_ge t i with h | h
              · rw [if_neg (by omega), if_neg (by omega)]
                exact h1 t h
              · have ht2 : t = i := by omega
                subst ht2
                rw [if_neg (by omega), if_pos rfl]
                exact hpk)
            (fun t ht htl => by
              rw [listSwap_getD l i k t hil hkl]
              rcases Nat.eq_or_lt_of_le ht with he | hlt2
              · rw [if_pos he]
                exact hpi
              · rw [if_neg (by omega), if_neg (by omega)]
                rcases Nat.lt_or_ge t j with hc2 | hc2
                · exact downScan_fail p l i (j-1) (by omega) t (by omega) (by omega)
                · exact h2 t hc2 (by rw [hswlen] at htl; exact htl))
          rw [hres]
          obtain ⟨r1, r2, r3, r4, r5⟩ := hrec
          refine ⟨r1.trans hswlen, by rw [hswlen] at r2; exact r2, r3,
            fun t ht htl => r4 t ht (by rw [hswlen]; exact htl),
            fun x => (r5 x).trans (listSwap_count l i k hil hkl x)⟩
    · have hieq : i = j := by omega
      subst hieq
      have hres : partLoop p (fuel+1) l i i = (l, i) := by
        simp only [partLoop, if_neg hlt]
      rw [hres]
      exact ⟨rfl, by omega, fun t ht => h1 t ht,
        fun t ht htl => h2 t ht htl, fun x => rfl⟩

end RadeonRays

namespace RadeonRays

/-- C3 counterexample: std::partition as invoked by Process is not stable.
On the world shape list [instance, meshA, meshB] the partitioned array is
[meshB, meshA, instance]: the two meshes do not keep their relative order. -/
theorem partition_not_stable_counterexample :
    (stdPartition (fun sh => !sh.isInstance) [exInstC, exMeshA, exMeshB]).1 =
      [exMeshB, exMeshA, exInstC] ∧
    (stdPartition (fun sh => !sh.isInstance) [exInstC, exMeshA, exMeshB]).2 = 2 ∧
    exMeshA.isInstance = false ∧
    exMeshB.isInstance = false ∧
    exMeshA ≠ exMeshB := by
  decide

/-- C3 (amended): in IntersectorShortStack::Process the shape array is
partitioned into non-instances (meshes) followed by instances - the result
has the same length and the same element counts as world.shapes_, every
position below the partition point holds a non-instance and every position
from it on holds an instance - but the partition (std::partition) is not
stable: two meshes (or two instances) need not keep their relative order
from world.shapes_. -/
theorem partition_spec_amended (shapes : List Shape) :
    ((stdPartition (fun sh => !sh.isInstance) shapes).1.length =
      shapes.length) ∧
    ((stdPartition (fun sh => !sh.isInstance) shapes).2 ≤ shapes.length) ∧
    (∀ t, t < (stdPartition (fun sh => !sh.isInstance) shapes).2 →
      ((stdPartition (fun sh => !sh.isInstance) shapes).1.getD t
        default).isInstance = false) ∧
    (∀ t, (stdPartition (fun sh => !sh.isInstance) shapes).2 ≤ t →
      t < shapes.length →
      ((stdPartition (fun sh => !sh.isInstance) shapes).1.getD t
        default).isInstance = true) ∧
    (∀ x : Shape, (stdPartition (fun sh => !sh.isInstance) shapes).1.count x =
      shapes.count x) := by
  have h := partLoop_spec (fun sh : Shape => !sh.isInstance)
    (shapes.length + 1) shapes 0 shapes.length
    (le_refl _) (Nat.zero_le _) (by omega)
    (fun t ht => by omega)
    (fun t ht htl => by omega)
  obtain ⟨r1, r2, r3, r4, r5⟩ := h
  refine ⟨r1, r2, fun t ht => ?_, fun t ht htl => ?_, r5⟩
  · have := r3 t ht
    simpa using this
  · have := r4 t ht htl
    simpa using this

/-- C3 amended witness at the concrete three-shape world. -/
theorem partition_spec_amended_witness :
    ((stdPartition (fun sh => !sh.isInstance)
      [exInstC, exMeshA, exMeshB]).1.getD 0 default).isInstance = false ∧
    ((stdPartition (fun sh => !sh.isInstance)
      [exInstC, exMeshA, exMeshB]).1.getD 2 default).isInstance = true := by
  refine ⟨(partition_spec_amended [exInstC, exMeshA, exMeshB]).2.2.1 0
    (by decide), (partition_spec_amended [exInstC, exMeshA, exMeshB]).2.2.2.1 2
    (by decide) (by decide)⟩

end RadeonRays

namespace RadeonRays

/-- Stepping the mesh_faces_start_idx prefix table: entry k+1 adds the face
count of shape k. -/
theorem facesStart_succ (shapes : List Shape) (k : Nat) (hk : k < shapes.length) :
    facesStart shapes (k+1) =
      facesStart shapes k + (shapes.getD k defaultShape).numFaces := by
  unfold facesStart
  rw [List.take_succ, List.map_append, List.sum_append, List.getElem?_eq_getElem hk]
  simp [List.getD_eq_getElem?_getD, List.getElem?_eq_getElem hk]

/-- The mesh_faces_start_idx prefix table is monotone. -/
theorem facesStart_mono (shapes : List Shape) : Monotone (facesStart shapes) := by
  apply monotone_nat_of_le_succ
  intro k
  unfold facesStart
  rw [List.take_succ, List.map_append, List.sum_append]
  exact Nat.le_add_right _ _

/-- Characterization of takeWhile's length: it is m when the first m
elements pass the test and the element at m (when present) fails it. -/
theorem length_takeWhile_of (p : Nat → Bool) :
    ∀ (l : List Nat) (m : Nat), m ≤ l.length →
      (∀ t, t < m → p (l.getD t 0) = true) →
      (∀ hm : m < l.length, p (l.getD m 0) = false) →
      (l.takeWhile p).length = m := by
  intro l
  induction l with
  | nil =>
    intro m hm _ _
    simp only [List.length_nil] at hm
    simp only [List.takeWhile_nil, List.length_nil]
    omega
  | cons a tl ih =>
    intro m hm h1 h2
    cases m with
    | zero =>
      have hpa : p a = false := by
        have := h2 (by simp)
        simpa using this
      simp [List.takeWhile_cons, hpa]
    | succ m0 =>
      have hpa : p a = true := by
        have := h1 0 (Nat.succ_pos _)
        simpa using this
      rw [List.takeWhile_cons, if_pos hpa]
      simp only [List.length_cons]
      have hstep := ih m0 (by simpa using hm)
        (fun t ht => by
          have := h1 (t+1) (by omega)
          simpa using this)
        (fun hm2 => by
          have := h2 (by simpa using Nat.succ_lt_succ hm2)
          simpa using this)
      omega

/-- Accessing the mesh_faces_start_idx vector at an in-range position. -/
theorem facesStartTable_getD (shapes : List Shape) (t : Nat)
    (ht : t < shapes.length) :
    (facesStartTable shapes).getD t 0 = facesStart shapes t := by
  simp [facesStartTable, List.getD_eq_getElem?_getD, List.getElem?_map,
    List.getElem?_range ht]

/-- The upper_bound lookup of Process lands one past the owning shape: for a
global face index x in the face range of shape k, upper_bound on
mesh_faces_start_idx returns k + 1. -/
theorem upperBound_owner (shapes : List Shape) (k : Nat) (x : Nat)
    (hk : k < shapes.length)
    (h1 : facesStart shapes k ≤ x)
    (h2 : x < facesStart shapes k + (shapes.getD k defaultShape).numFaces) :
    upperBound (facesStartTable shapes) x = k + 1 := by
  unfold upperBound
  have hlen : (facesStartTable shapes).length = shapes.length := by
    simp [facesStartTable]
  apply length_takeWhile_of
  · omega
  · intro t ht
    have htl : t < shapes.length := by omega
    rw [facesStartTable_getD shapes t htl]
    have hmono : facesStart shapes t ≤ facesStart shapes k :=
      facesStart_mono shapes (by omega : t ≤ k)
    simp only [decide_eq_true_eq]
    omega
  · intro hm
    have hkl : k + 1 < shapes.length := by omega
    rw [facesStartTable_getD shapes (k+1) hkl]
    rw [facesStart_succ shapes k hk]
    simp only [decide_eq_false_iff_not]
    omega

/-- find? by id returns the shape at position k when the shape ids are
pairwise distinct. -/
theorem find?_by_id (shapes : List Shape) :
    ∀ (k : Nat), k < shapes.length →
      shapes.Pairwise (fun a b => a.getId ≠ b.getId) →
      shapes.find? (fun sh => sh.getId == (shapes.getD k defaultShape).getId) =
        some (shapes.getD k defaultShape) := by
  induction shapes with
  | nil =>
    intro k hk _
    simp at hk
  | cons a tl ih =>
    intro k hk hids
    cases k with
    | zero =>
      simp [List.find?_cons, List.getD_cons_zero]
    | succ k0 =>
      have hk0 : k0 < tl.length := by simpa using hk
      rw [List.getD_cons_succ]
      have hmem : tl.getD k0 defaultShape ∈ tl := by
        rw [List.getD_eq_getElem?_getD, List.getElem?_eq_getElem hk0]
        exact List.getElem_mem hk0
      have hne : a.getId ≠ (tl.getD k0 defaultShape).getId :=
        (List.pairwise_cons.mp hids).1 _ hmem
      have hfa : (a.getId == (tl.getD k0 defaultShape).getId) = false := by
        simpa using hne
      simp only [List.find?_cons, hfa]
      exact ih k0 hk0 (List.pairwise_cons.mp hids).2

end RadeonRays

namespace RadeonRays

/-- Helper: an in-range optional lookup is the getD access. -/
theorem getElem?_eq_some_getD (l : List β) (n : Nat) (d : β) (h : n < l.length) :
    l[n]? = some (l.getD n d) := by
  rw [List.getElem?_eq_getElem h, List.getD_eq_getElem?_getD,
    List.getElem?_eq_getElem h]
  rfl

/-- C6: the face emitted by Process at position i of the face table has
id equal to reordering[i] minus the owning shape's mesh_faces_start_idx
entry, shapeidx equal to that shape's GetId(), and vertex indices equal to
the base mesh's local vertex indices plus the shape's
mesh_vertices_start_idx entry, the owner being the shape k whose face range
contains reordering[i] (found by the upper_bound lookup, instances flattened
to their base mesh); consequently, when shape ids are pairwise distinct,
the emitted face resolves via its shapeidx and id back to the original
mesh-local face. -/
theorem face_table_roundtrip (shapes : List Shape) (reordering : List Nat)
    (i k : Nat)
    (hi : i < reordering.length)
    (hk : k < shapes.length)
    (hx1 : facesStart shapes k ≤ reordering.getD i 0)
    (hx2 : reordering.getD i 0 <
      facesStart shapes k + (shapes.getD k defaultShape).numFaces)
    (hids : shapes.Pairwise (fun a b => a.getId ≠ b.getId)) :
    (faceTable shapes reordering).getD i default =
      emitFace shapes (reordering.getD i 0) ∧
    emitFace shapes (reordering.getD i 0) =
      { i0 := ((shapes.getD k defaultShape).baseMesh.faces.getD
          (reordering.getD i 0 - facesStart shapes k) ⟨0, 0, 0⟩).i0 +
          vertsStart shapes k
        i1 := ((shapes.getD k defaultShape).baseMesh.faces.getD
          (reordering.getD i 0 - facesStart shapes k) ⟨0, 0, 0⟩).i1 +
          vertsStart shapes k
        i2 := ((shapes.getD k defaultShape).baseMesh.faces.getD
          (reordering.getD i 0 - facesStart shapes k) ⟨0, 0, 0⟩).i2 +
          vertsStart shapes k
        shapeidx := (shapes.getD k defaultShape).getId
        id := reordering.getD i 0 - facesStart shapes k } ∧
    resolveFace shapes (shapes.getD k defaultShape).getId
        (reordering.getD i 0 - facesStart shapes k) =
      some ((shapes.getD k defaultShape).baseMesh.faces.getD
        (reordering.getD i 0 - facesStart shapes k) ⟨0, 0, 0⟩) := by
  have hub := upperBound_owner shapes k (reordering.getD i 0) hk hx1 hx2
  refine ⟨?_, ?_, ?_⟩
  · simp [faceTable, List.getD_eq_getElem?_getD, List.getElem?_map,
      List.getElem?_eq_getElem hi]
  · simp only [emitFace, hub, Nat.add_sub_cancel]
  · have hfid : reordering.getD i 0 - facesStart shapes k <
        (shapes.getD k defaultShape).baseMesh.faces.length := by
      have hnf : (shapes.getD k defaultShape).numFaces =
          (shapes.getD k defaultShape).baseMesh.faces.length := rfl
      omega
    unfold resolveFace
    rw [find?_by_id shapes k hk hids, Option.some_bind]
    exact getElem?_eq_some_getD _ _ _ hfid

/-- C6 witness on the two-shape scene: the face table entry for global face
index 2 (the instance's second face) and its resolution back to the base
mesh. -/
theorem face_table_roundtrip_witness :
    (faceTable exShapes [2, 0, 1]).getD 0 default =
      { i0 := 4, i1 := 5, i2 := 3, shapeidx := 9, id := 1 } ∧
    resolveFace exShapes 9 1 = some ⟨1, 2, 0⟩ := by
  have h := face_table_roundtrip exShapes [2, 0, 1] 0 1
    (by decide) (by decide) (by decide) (by decide) (by decide)
  refine ⟨?_, ?_⟩
  · rw [h.1]
    rfl
  · exact h.2.2

end RadeonRays

namespace RadeonRays

end RadeonRays

namespace Baikal

/-- C7 witness: ShadeBackgroundEnvMap is dispatched on pass 0. -/
theorem pass_dispatch_order_witness :
    KEvent.shadeBackgroundEnvMap ∈ passBody 0 0 :=
  (pass_dispatch_order 0 0).2.1.mpr rfl

end Baikal
